import Mathlib

/-!
# Paris metro vs e-bike comparison: fare-calculator verification

Shallow embedding of the e-bike multi-provider fare calculator of
`app.py` / `config.py` (repository `Paris-compare`), together with the
caller-level aggregation (`all_options`, `min_cost`, `cheapest_providers`,
`short_term_cheaper`).  Currency amounts and trip durations are modelled
as rationals (`ℚ`); Python expressions that can raise (`None` arithmetic,
missing dictionary keys) are modelled with `Option`.
-/

namespace ParisCompare

/-- `METRO_COST = 2.50` from `config.py`. -/
def METRO_COST : ℚ := 5/2

/-- A Velib' pass is either a single-ride ticket (`"type": "single"`) or a
multi-ride pass (`"type": "multi"`, with a `"trips"` key). -/
inductive RideKind where
  | single : RideKind
  | multi (trips : ℕ) : RideKind
deriving DecidableEq, Repr

/-- One entry of a provider's `"passes"` list in `config.py`.  The
Voi/Dott/Lime entries carry `minutes` and `cost` only (`Pass.time`); the
Velib' entries additionally carry a name, a price per started 30-minute
overage block, and a ride kind (`Pass.ride`).  There is no block-length
field: `overage_per_30min` is only a price. -/
inductive Pass where
  | time (minutes : ℕ) (cost : ℚ) : Pass
  | ride (name : String) (minutes : ℕ) (cost : ℚ)
      (overage_per_30min : ℚ) (kind : RideKind) : Pass
deriving DecidableEq, Repr

/-- The `"minutes"` key, present on both pass shapes. -/
def passMinutes : Pass → ℕ
  | .time m _ => m
  | .ride _ m _ _ _ => m

/-- The `"cost"` key, present on both pass shapes. -/
def passCost : Pass → ℚ
  | .time _ c => c
  | .ride _ _ c _ _ => c

/-- One provider's entry of `BIKE_PROVIDERS` in `config.py`:
`"unlock"`, `"per_minute"` (`None` modelled as `none`) and `"passes"`. -/
structure Tariff where
  unlock : ℚ
  per_minute : Option ℚ
  passes : List Pass
deriving DecidableEq, Repr

/-- The `"Voi"` entry of `BIKE_PROVIDERS` in `config.py`. -/
def voiTariff : Tariff :=
  { unlock := 1, per_minute := some (19/100),
    passes := [.time 30 (299/100), .time 60 (549/100), .time 120 (1099/100),
               .time 200 (1699/100), .time 400 (3199/100)] }

/-- The `"Dott"` entry of `BIKE_PROVIDERS` in `config.py`. -/
def dottTariff : Tariff :=
  { unlock := 1, per_minute := some (28/100),
    passes := [.time 30 (399/100), .time 100 (1199/100)] }

/-- The `"Lime"` entry of `BIKE_PROVIDERS` in `config.py`. -/
def limeTariff : Tariff :=
  { unlock := 1, per_minute := some (23/100),
    passes := [.time 30 (399/100), .time 60 (699/100), .time 200 (2199/100),
               .time 400 (3999/100)] }

/-- The `"Velib'"` entry of `BIKE_PROVIDERS` in `config.py`. -/
def velibTariff : Tariff :=
  { unlock := 0, per_minute := none,
    passes := [.ride "Ticket V" 45 3 2 .single,
               .ride "24h Pass" 45 10 2 (.multi 5)] }

/-- The `BIKE_PROVIDERS` table of `config.py`, in source order. -/
def BIKE_PROVIDERS : List (String × Tariff) :=
  [("Voi", voiTariff), ("Dott", dottTariff), ("Lime", limeTariff),
   ("Velib'", velibTariff)]

/-- One element of the list returned by `calculate_all_bike_costs`: the dict
`{"name": …, "cost": …, "remaining": …, "remaining_type": …}`. -/
structure Quote where
  name : String
  cost : ℚ
  remaining : Option ℚ
  remaining_type : Option String
deriving DecidableEq, Repr

/-- The quote built for one Velib' pass (the `provider == "Velib'"` branch of
`calculate_all_bike_costs`, app.py lines 84–110).  A pass without a
`"type"` key would raise `KeyError` in the source, hence `none` on
`Pass.time`. -/
def velibPassQuote (d : ℚ) : Pass → Option Quote
  | .time _ _ => none
  | .ride name minutes cost over kind =>
    let overage_blocks : ℤ :=
      if d > (minutes : ℚ) then ⌈(d - (minutes : ℚ)) / 30⌉ else 0
    match kind with
    | .single =>
        some { name := name, cost := cost + (overage_blocks : ℚ) * over,
               remaining := some 0, remaining_type := some "trips" }
    | .multi trips =>
        some { name := name,
               cost := cost / (trips : ℚ) + (overage_blocks : ℚ) * over,
               remaining := some ((trips : ℚ) - 1),
               remaining_type := some "trips" }

/-- The quote built for one Voi/Dott/Lime pass (the generic branch of
`calculate_all_bike_costs`, app.py lines 111–129).  In the overage case the
source computes `(duration - minutes) * pricing["per_minute"]`, which raises
`TypeError` when `per_minute` is `None`, hence `none` there. -/
def genericPassQuote (d : ℚ) (per_minute : Option ℚ) (p : Pass) : Option Quote :=
  let m := passMinutes p
  let c := passCost p
  if d ≤ (m : ℚ) then
    some { name := toString m ++ " min pass", cost := d * (c / (m : ℚ)),
           remaining := some ((m : ℚ) - d), remaining_type := some "minutes" }
  else
    match per_minute with
    | some r =>
        some { name := toString m ++ " min pass",
               cost := c + (d - (m : ℚ)) * r,
               remaining := some 0, remaining_type := some "minutes" }
    | none => none

/-- The `for pass_option in pricing["passes"]` loop: one quote appended per
pass, an exception anywhere aborting the whole call. -/
def quoteList (f : Pass → Option Quote) : List Pass → Option (List Quote)
  | [] => some []
  | p :: ps =>
    match f p, quoteList f ps with
    | some q, some qs => some (q :: qs)
    | _, _ => none

/-- Body of `calculate_all_bike_costs` after `pricing = BIKE_PROVIDERS[provider]`
(app.py lines 63–131): an optional "Per-minute" quote first, then one quote
per configured pass in configuration order, the branch chosen by
`provider == "Velib'"`. -/
def computeQuotes (d : ℚ) (provider : String) (pricing : Tariff) :
    Option (List Quote) :=
  let base : List Quote :=
    match pricing.per_minute with
    | some r =>
        [{ name := "Per-minute", cost := pricing.unlock + d * r,
           remaining := none, remaining_type := none }]
    | none => []
  let passQuotes : Option (List Quote) :=
    if provider = "Velib'" then
      quoteList (velibPassQuote d) pricing.passes
    else
      quoteList (genericPassQuote d pricing.per_minute) pricing.passes
  passQuotes.map (fun qs => base ++ qs)

/-- `calculate_all_bike_costs(duration_minutes, provider)` of app.py:
looks the provider up in `BIKE_PROVIDERS` (a missing key raises) and
computes every pricing option. -/
def calculate_all_bike_costs (d : ℚ) (provider : String) : Option (List Quote) :=
  match BIKE_PROVIDERS.lookup provider with
  | none => none
  | some pricing => computeQuotes d provider pricing

/-- The `all_options` aggregation loop of app.py (lines 539–546): quotes of
every configured provider, each tagged with its provider name, in
configuration order. -/
def allOptionsAux (d : ℚ) : List (String × Tariff) → Option (List (String × Quote))
  | [] => some []
  | (name, _) :: rest =>
    match calculate_all_bike_costs d name, allOptionsAux d rest with
    | some opts, some others => some (opts.map (fun q => (name, q)) ++ others)
    | _, _ => none

/-- `all_options` for the shipped configuration. -/
def all_options (d : ℚ) : Option (List (String × Quote)) :=
  allOptionsAux d BIKE_PROVIDERS

/-- `min(all_options, key=lambda x: x['cost'])['cost']` (app.py line 598):
the minimum cost of a non-empty option list; Python's `min` raises on an
empty sequence. -/
def min_cost : List (String × Quote) → Option ℚ
  | [] => none
  | x :: xs => some (xs.foldl (fun m o => if o.2.cost < m then o.2.cost else m) x.2.cost)

/-- `cheapest_providers` (app.py line 602): the deduplicated providers of the
options whose cost is within `0.01` of the minimum (`abs(cost - min) < 0.01`). -/
def cheapest_providers (opts : List (String × Quote)) (m : ℚ) : List String :=
  ((opts.filter (fun o => |o.2.cost - m| < 1/100)).map (fun o => o.1)).dedup

/-- `seqStarts pat l` : `pat` is an initial segment of `l`. -/
def seqStarts : List Char → List Char → Bool
  | [], _ => true
  | _ :: _, [] => false
  | a :: as, b :: bs => a == b && seqStarts as bs

/-- `seqContains pat l` : `pat` occurs contiguously inside `l` — the model of
Python's substring test `pat in s`. -/
def seqContains (pat : List Char) : List Char → Bool
  | [] => pat.isEmpty
  | b :: bs => seqStarts pat (b :: bs) || seqContains pat bs

/-- Python `pat in s` on strings. -/
def strContains (s pat : String) : Bool := seqContains pat.data s.data

/-- Python `int(s.split()[0])`: the leading whitespace-delimited token parsed
as a number (`none` where Python would raise `ValueError`). -/
def firstTokenNat (s : String) : Option ℕ :=
  let tok := s.data.takeWhile (fun c => c ≠ ' ')
  if tok ≠ [] ∧ tok.all Char.isDigit then
    some (tok.foldl (fun n c => 10 * n + (c.toNat - 48)) 0)
  else none

/-- The name test inside `short_term_cheaper` (app.py lines 638–640):
`opt['name'] == "Per-minute" or ('min pass' in opt['name'] and
int(opt['name'].split()[0]) < 60)`. -/
def shortTermName (s : String) : Bool :=
  (s = "Per-minute" : Bool) ||
    (strContains s "min pass" &&
      match firstTokenNat s with
      | some n => (n < 60 : Bool)
      | none => false)

/-- The per-option predicate inside `short_term_cheaper` (app.py lines
634–642): a non-Velib' option that is the per-minute quote or an
under-60-minute pass quote, and is cheaper than the metro fare. -/
def shortTermOpt (o : String × Quote) : Bool :=
  (o.2.cost < METRO_COST : Bool) && (o.1 ≠ "Velib'" : Bool) &&
    shortTermName o.2.name

/-- `short_term_cheaper` (app.py lines 634–642) over the aggregated options:
decides whether e-bike is recommended over metro. -/
def short_term_cheaper (d : ℚ) : Option Bool :=
  (all_options d).map (fun opts => opts.any shortTermOpt)

/-- Well-formedness of one configured pass, as §3/§4 of the spec require of
static configuration: positive minute cap, non-negative prices, positive
trip count. -/
def passWF : Pass → Prop
  | .time m c => 0 < m ∧ 0 ≤ c
  | .ride _ m c ov k =>
      0 < m ∧ 0 ≤ c ∧ 0 ≤ ov ∧ (match k with | .single => True | .multi n => 0 < n)

/-- Claim C4's own wording, for comparison with the code's
`short_term_cheaper`: some quote that is a per-minute option or comes from a
bundle whose minute cap is below the 60-minute threshold costs strictly less
than the metro fare. -/
def claimPracticallyCheaper (d : ℚ) : Prop :=
  ∃ pr ∈ BIKE_PROVIDERS,
    (∃ r : ℚ, pr.2.per_minute = some r ∧ pr.2.unlock + d * r < METRO_COST) ∨
    (∃ p ∈ pr.2.passes, passMinutes p < 60 ∧
      ∃ q : Quote,
        (if pr.1 = "Velib'" then velibPassQuote d
         else genericPassQuote d pr.2.per_minute) p = some q ∧
        q.cost < METRO_COST)

/-- Amended claim C4: as `claimPracticallyCheaper` but restricted to
providers other than Velib' — the asymmetry the code implements. -/
def amendedPracticallyCheaper (d : ℚ) : Prop :=
  ∃ pr ∈ BIKE_PROVIDERS, pr.1 ≠ "Velib'" ∧
    ((∃ r : ℚ, pr.2.per_minute = some r ∧ pr.2.unlock + d * r < METRO_COST) ∨
     (∃ p ∈ pr.2.passes, passMinutes p < 60 ∧
       ∃ q : Quote, genericPassQuote d pr.2.per_minute p = some q ∧
         q.cost < METRO_COST))

/-! ### Helper lemmas -/

theorem calc_voi (d : ℚ) :
    calculate_all_bike_costs d "Voi" = computeQuotes d "Voi" voiTariff := rfl

theorem calc_dott (d : ℚ) :
    calculate_all_bike_costs d "Dott" = computeQuotes d "Dott" dottTariff := rfl

theorem calc_lime (d : ℚ) :
    calculate_all_bike_costs d "Lime" = computeQuotes d "Lime" limeTariff := rfl

theorem calc_velib (d : ℚ) :
    calculate_all_bike_costs d "Velib'" = computeQuotes d "Velib'" velibTariff := rfl

theorem genericPassQuote_name {d : ℚ} {pm : Option ℚ} {p : Pass} {q : Quote}
    (h : genericPassQuote d pm p = some q) :
    q.name = toString (passMinutes p) ++ " min pass" := by
  simp only [genericPassQuote] at h
  split at h
  · obtain rfl := Option.some.inj h
    rfl
  · rcases pm with _ | r
    · simp at h
    · obtain rfl := Option.some.inj h
      rfl

theorem shortTermOpt_false_of_cost {o : String × Quote}
    (h : ¬ o.2.cost < METRO_COST) : shortTermOpt o = false := by
  simp [shortTermOpt, decide_eq_false h]

theorem shortTermOpt_false_of_velib {o : String × Quote}
    (h : o.1 = "Velib'") : shortTermOpt o = false := by
  have hb : (o.1 ≠ "Velib'" : Bool) = false := by rw [h]; decide
  simp [shortTermOpt, hb]

theorem shortTermOpt_false_of_name {o : String × Quote}
    (h : shortTermName o.2.name = false) : shortTermOpt o = false := by
  simp [shortTermOpt, h]

theorem shortTermOpt_true_iff (o : String × Quote) :
    shortTermOpt o = true ↔
      o.2.cost < METRO_COST ∧ o.1 ≠ "Velib'" ∧ shortTermName o.2.name = true := by
  simp [shortTermOpt, Bool.and_eq_true, decide_eq_true_eq, and_assoc]


theorem genericPassQuote_pm (d r : ℚ) (p : Pass) :
    genericPassQuote d (some r) p =
      some (if d ≤ (passMinutes p : ℚ) then
              { name := toString (passMinutes p) ++ " min pass",
                cost := d * (passCost p / (passMinutes p : ℚ)),
                remaining := some ((passMinutes p : ℚ) - d),
                remaining_type := some "minutes" }
            else
              { name := toString (passMinutes p) ++ " min pass",
                cost := passCost p + (d - (passMinutes p : ℚ)) * r,
                remaining := some 0, remaining_type := some "minutes" }) := by
  by_cases h : d ≤ (passMinutes p : ℚ) <;> simp [genericPassQuote, h]

theorem velibPassQuote_ride (d : ℚ) (nm : String) (m : ℕ) (c ov : ℚ) (k : RideKind) :
    velibPassQuote d (.ride nm m c ov k) =
      some (match k with
            | .single =>
                { name := nm,
                  cost := c + ((if d > (m : ℚ) then ⌈(d - (m : ℚ)) / 30⌉ else 0 : ℤ) : ℚ) * ov,
                  remaining := some 0, remaining_type := some "trips" }
            | .multi n =>
                { name := nm,
                  cost := c / (n : ℚ) +
                    ((if d > (m : ℚ) then ⌈(d - (m : ℚ)) / 30⌉ else 0 : ℤ) : ℚ) * ov,
                  remaining := some ((n : ℚ) - 1),
                  remaining_type := some "trips" }) := by
  cases k <;> rfl

theorem quoteList_isSome (f : Pass → Option Quote) (ps : List Pass)
    (h : ∀ p ∈ ps, (f p).isSome) : ∃ qs, quoteList f ps = some qs := by
  induction ps with
  | nil => exact ⟨[], rfl⟩
  | cons p ps ih =>
    obtain ⟨qs, hqs⟩ := ih (fun q hq => h q (List.mem_cons_of_mem _ hq))
    obtain ⟨q, hq⟩ := Option.isSome_iff_exists.mp (h p (List.mem_cons_self _ _))
    exact ⟨q :: qs, by simp [quoteList, hq, hqs]⟩

theorem quoteList_length (f : Pass → Option Quote) :
    ∀ {ps : List Pass} {qs : List Quote}, quoteList f ps = some qs →
      qs.length = ps.length := by
  intro ps
  induction ps with
  | nil => intro qs h; simp [quoteList] at h; subst h; simp
  | cons p ps ih =>
    intro qs h
    simp only [quoteList] at h
    rcases hp : f p with _ | q <;> rw [hp] at h
    · exact absurd h (by simp)
    rcases hps : quoteList f ps with _ | qs' <;> rw [hps] at h
    · exact absurd h (by simp)
    obtain rfl : q :: qs' = qs := by simpa using h
    simp [ih hps]

theorem quoteList_getElem (f : Pass → Option Quote) :
    ∀ {ps : List Pass} {qs : List Quote}, quoteList f ps = some qs →
      ∀ i : ℕ, qs[i]? = (ps[i]?).bind f := by
  intro ps
  induction ps with
  | nil => intro qs h i; simp [quoteList] at h; subst h; simp
  | cons p ps ih =>
    intro qs h i
    simp only [quoteList] at h
    rcases hp : f p with _ | q <;> rw [hp] at h
    · exact absurd h (by simp)
    rcases hps : quoteList f ps with _ | qs' <;> rw [hps] at h
    · exact absurd h (by simp)
    obtain rfl : q :: qs' = qs := by simpa using h
    cases i with
    | zero => simp [hp]
    | succ n => simpa using ih hps n

theorem quoteList_mem_iff (f : Pass → Option Quote) :
    ∀ {ps : List Pass} {qs : List Quote}, quoteList f ps = some qs →
      ∀ q : Quote, q ∈ qs ↔ ∃ p ∈ ps, f p = some q := by
  intro ps
  induction ps with
  | nil => intro qs h q; simp [quoteList] at h; subst h; simp
  | cons p ps ih =>
    intro qs h q
    simp only [quoteList] at h
    rcases hp : f p with _ | q' <;> rw [hp] at h
    · exact absurd h (by simp)
    rcases hps : quoteList f ps with _ | qs' <;> rw [hps] at h
    · exact absurd h (by simp)
    obtain rfl : q' :: qs' = qs := by simpa using h
    constructor
    · intro hq
      rcases List.mem_cons.mp hq with rfl | hq
      · exact ⟨p, List.mem_cons_self _ _, hp⟩
      · obtain ⟨p', hp', hfp'⟩ := (ih hps q).mp hq
        exact ⟨p', List.mem_cons_of_mem _ hp', hfp'⟩
    · rintro ⟨p', hp', hfp'⟩
      rcases List.mem_cons.mp hp' with rfl | hp'
      · rw [hp] at hfp'
        exact List.mem_cons.mpr (Or.inl (by simpa using hfp'.symm))
      · exact List.mem_cons_of_mem _ ((ih hps q).mpr ⟨p', hp', hfp'⟩)

theorem computeQuotes_eq (d : ℚ) (name : String) (t : Tariff) :
    computeQuotes d name t =
      (quoteList (if name = "Velib'" then velibPassQuote d
                  else genericPassQuote d t.per_minute) t.passes).map
        (fun qs =>
          (match t.per_minute with
           | some r => [{ name := "Per-minute", cost := t.unlock + d * r,
                          remaining := none, remaining_type := none }]
           | none => []) ++ qs) := by
  by_cases hv : name = "Velib'" <;> simp [computeQuotes, hv]

theorem computeQuotes_isSome_generic (name : String) (t : Tariff) (r : ℚ) (d : ℚ)
    (hname : name ≠ "Velib'") (hpm : t.per_minute = some r) :
    (computeQuotes d name t).isSome := by
  obtain ⟨qs, hqs⟩ := quoteList_isSome (genericPassQuote d t.per_minute) t.passes
    (fun p _ => by rw [hpm, genericPassQuote_pm]; rfl)
  simp [computeQuotes, hname, hqs]

theorem computeQuotes_isSome_velib (d : ℚ) :
    (computeQuotes d "Velib'" velibTariff).isSome := by
  have hps : ∀ p ∈ velibTariff.passes, (velibPassQuote d p).isSome := by
    intro p hp
    have hp' : p ∈ ([.ride "Ticket V" 45 3 2 .single,
                     .ride "24h Pass" 45 10 2 (.multi 5)] : List Pass) := hp
    rcases List.mem_cons.mp hp' with rfl | hp'
    · rw [velibPassQuote_ride]; rfl
    rcases List.mem_cons.mp hp' with rfl | hp'
    · rw [velibPassQuote_ride]; rfl
    simp at hp'
  obtain ⟨qs, hqs⟩ := quoteList_isSome (velibPassQuote d) velibTariff.passes hps
  simp [computeQuotes, hqs]

theorem shipped_isSome (name : String) (hmem : name ∈ BIKE_PROVIDERS.map Prod.fst)
    (d : ℚ) : (calculate_all_bike_costs d name).isSome := by
  simp only [BIKE_PROVIDERS, List.map_cons, List.map_nil, List.mem_cons,
    List.not_mem_nil, or_false] at hmem
  rcases hmem with rfl | rfl | rfl | rfl
  · have hl : BIKE_PROVIDERS.lookup "Voi" = some voiTariff := rfl
    simp only [calculate_all_bike_costs]
    rw [hl]
    exact computeQuotes_isSome_generic "Voi" _ (19/100) d (by decide) rfl
  · have hl : BIKE_PROVIDERS.lookup "Dott" = some dottTariff := rfl
    simp only [calculate_all_bike_costs]
    rw [hl]
    exact computeQuotes_isSome_generic "Dott" _ (28/100) d (by decide) rfl
  · have hl : BIKE_PROVIDERS.lookup "Lime" = some limeTariff := rfl
    simp only [calculate_all_bike_costs]
    rw [hl]
    exact computeQuotes_isSome_generic "Lime" _ (23/100) d (by decide) rfl
  · have hl : BIKE_PROVIDERS.lookup "Velib'" = some velibTariff := rfl
    simp only [calculate_all_bike_costs]
    rw [hl]
    exact computeQuotes_isSome_velib d

theorem allOptionsAux_isSome (d : ℚ) :
    ∀ L : List (String × Tariff),
      (∀ pr ∈ L, (calculate_all_bike_costs d pr.1).isSome) →
      ∃ l, allOptionsAux d L = some l := by
  intro L
  induction L with
  | nil => exact fun _ => ⟨[], rfl⟩
  | cons pr rest ih =>
    intro h
    obtain ⟨name, t⟩ := pr
    obtain ⟨others, hothers⟩ := ih (fun p hp => h p (List.mem_cons_of_mem _ hp))
    obtain ⟨opts, hopts⟩ :=
      Option.isSome_iff_exists.mp (h (name, t) (List.mem_cons_self _ _))
    exact ⟨opts.map (fun q => (name, q)) ++ others,
      by simp [allOptionsAux, hopts, hothers]⟩

theorem all_options_isSome (d : ℚ) : ∃ l, all_options d = some l :=
  allOptionsAux_isSome d BIKE_PROVIDERS
    (fun pr hpr => shipped_isSome pr.1 (List.mem_map.mpr ⟨pr, hpr, rfl⟩) d)

theorem allOptionsAux_mem_iff (d : ℚ) :
    ∀ (L : List (String × Tariff)) (l : List (String × Quote)),
      allOptionsAux d L = some l →
      ∀ o : String × Quote, o ∈ l ↔
        ∃ pr ∈ L, o.1 = pr.1 ∧
          ∃ lq, calculate_all_bike_costs d o.1 = some lq ∧ o.2 ∈ lq := by
  intro L
  induction L with
  | nil =>
    intro l h o
    simp only [allOptionsAux] at h
    obtain rfl : ([] : List (String × Quote)) = l := by simpa using h
    simp
  | cons pr rest ih =>
    intro l h o
    obtain ⟨name, t⟩ := pr
    obtain ⟨o1, o2⟩ := o
    simp only [allOptionsAux] at h
    rcases hc : calculate_all_bike_costs d name with _ | opts <;> rw [hc] at h
    · exact absurd h (by simp)
    rcases ha : allOptionsAux d rest with _ | others <;> rw [ha] at h
    · exact absurd h (by simp)
    obtain rfl : opts.map (fun q => (name, q)) ++ others = l := by simpa using h
    constructor
    · intro ho
      rcases List.mem_append.mp ho with hm | hm
      · obtain ⟨q, hq, heq⟩ := List.mem_map.mp hm
        obtain ⟨rfl, rfl⟩ : name = o1 ∧ q = o2 := by
          constructor <;> [exact congrArg Prod.fst heq; exact congrArg Prod.snd heq]
        exact ⟨(name, t), List.mem_cons_self _ _, rfl, opts, hc, hq⟩
      · obtain ⟨pr', hpr', h1, lq, hlq, h2⟩ := (ih others ha (o1, o2)).mp hm
        exact ⟨pr', List.mem_cons_of_mem _ hpr', h1, lq, hlq, h2⟩
    · rintro ⟨pr', hpr', h1, lq, hlq, h2⟩
      rcases List.mem_cons.mp hpr' with rfl | hpr'
      · obtain rfl : o1 = name := h1
        rw [hc] at hlq
        obtain rfl : opts = lq := by simpa using hlq
        exact List.mem_append_left _ (List.mem_map.mpr ⟨o2, h2, rfl⟩)
      · exact List.mem_append_right _
          ((ih others ha (o1, o2)).mpr ⟨pr', hpr', h1, lq, hlq, h2⟩)

theorem computeQuotes_mem_iff (d : ℚ) (name : String) (t : Tariff) (l : List Quote)
    (h : computeQuotes d name t = some l) (q : Quote) :
    q ∈ l ↔ ((∃ r, t.per_minute = some r ∧
                q = Quote.mk "Per-minute" (t.unlock + d * r) none none) ∨
             (∃ p ∈ t.passes,
                (if name = "Velib'" then velibPassQuote d
                 else genericPassQuote d t.per_minute) p = some q)) := by
  rw [computeQuotes_eq] at h
  obtain ⟨qs, hqs, hl⟩ := Option.map_eq_some'.mp h
  subst hl
  rw [List.mem_append]
  constructor
  · rintro (hb | hq')
    · rcases hpm : t.per_minute with _ | r
      · rw [hpm] at hb; simp at hb
      · rw [hpm] at hb
        simp only [List.mem_singleton] at hb
        exact Or.inl ⟨r, rfl, hb⟩
    · exact Or.inr ((quoteList_mem_iff _ hqs q).mp hq')
  · rintro (⟨r, hr, rfl⟩ | ⟨p, hp, hfp⟩)
    · left
      rw [hr]
      simp
    · right
      exact (quoteList_mem_iff _ hqs q).mpr ⟨p, hp, hfp⟩

theorem shipped_quote_mem (d : ℚ) (name : String) (t : Tariff)
    (hpr : (name, t) ∈ BIKE_PROVIDERS)
    (heq : calculate_all_bike_costs d name = computeQuotes d name t)
    (hsome : (calculate_all_bike_costs d name).isSome)
    (l : List (String × Quote)) (hl : all_options d = some l) (q : Quote)
    (hcase : (∃ r, t.per_minute = some r ∧
                q = Quote.mk "Per-minute" (t.unlock + d * r) none none) ∨
             (∃ p ∈ t.passes,
                (if name = "Velib'" then velibPassQuote d
                 else genericPassQuote d t.per_minute) p = some q)) :
    (name, q) ∈ l := by
  obtain ⟨lq, hlq⟩ := Option.isSome_iff_exists.mp hsome
  refine (allOptionsAux_mem_iff d _ l hl (name, q)).mpr
    ⟨(name, t), hpr, rfl, lq, hlq, ?_⟩
  have hcq : computeQuotes d name t = some lq := heq ▸ hlq
  exact (computeQuotes_mem_iff d name t lq hcq q).mpr hcase

/-! ### Claim theorems -/

/-- C2: for a time bundle with `minutesIncluded = m` and `price = c`, billed
per-minute at rate `r`: a duration `d ≤ m` (the boundary `d = m` included)
yields cost `c * d / m` and remaining allowance `m - d` minutes; a duration
`d > m` yields cost `c + (d - m) * r` and remaining allowance `0`. -/
theorem C2_time_bundle_semantics (d : ℚ) (m : ℕ) (c : ℚ) (pm : Option ℚ) (r : ℚ) :
    (d ≤ (m : ℚ) →
      genericPassQuote d pm (.time m c) =
        some { name := toString m ++ " min pass", cost := c * d / (m : ℚ),
               remaining := some ((m : ℚ) - d), remaining_type := some "minutes" }) ∧
    ((m : ℚ) < d → pm = some r →
      genericPassQuote d pm (.time m c) =
        some { name := toString m ++ " min pass", cost := c + (d - (m : ℚ)) * r,
               remaining := some 0, remaining_type := some "minutes" }) := by
  constructor
  · intro h
    have hc : c * d / (m : ℚ) = d * (c / (m : ℚ)) := by ring
    rw [hc]
    simp only [genericPassQuote, passMinutes, passCost, if_pos h]
  · intro h hpm
    subst hpm
    simp only [genericPassQuote, passMinutes, passCost, if_neg (not_le.mpr h)]

/-- Witness for C2 at the spec's own example (Voi 30-minute bundle), in both
the fits-within case (`d = 20`) and the overage case (`d = 40`). -/
theorem C2_witness :
    ((20 : ℚ) ≤ ((30 : ℕ) : ℚ) ∧
      genericPassQuote 20 (some (19/100)) (.time 30 (299/100)) =
        some { name := toString (30 : ℕ) ++ " min pass", cost := 299/100 * 20 / ((30 : ℕ) : ℚ),
               remaining := some (((30 : ℕ) : ℚ) - 20), remaining_type := some "minutes" }) ∧
    (((30 : ℕ) : ℚ) < 40 ∧
      genericPassQuote 40 (some (19/100)) (.time 30 (299/100)) =
        some { name := toString (30 : ℕ) ++ " min pass",
               cost := 299/100 + (40 - ((30 : ℕ) : ℚ)) * (19/100),
               remaining := some 0, remaining_type := some "minutes" }) :=
  ⟨⟨by norm_num,
    (C2_time_bundle_semantics 20 30 (299/100) (some (19/100)) (19/100)).1 (by norm_num)⟩,
   ⟨by norm_num,
    (C2_time_bundle_semantics 40 30 (299/100) (some (19/100)) (19/100)).2
      (by norm_num) rfl⟩⟩

/-- C3: for a Velib' ride bundle, the number of overage blocks is
`⌈max 0 (d - m) / 30⌉` (so `d = m` gives 0 blocks and `d = m + 1` gives 1);
a single-ride ticket is quoted at `price + blocks * blockPrice` with 0 rides
remaining, a multi-ride pass at `price / trips + blocks * blockPrice` with
`trips - 1` rides remaining. -/
theorem C3_ride_bundle_semantics (d : ℚ) (nm : String) (m : ℕ) (c ov : ℚ) (n : ℕ) :
    velibPassQuote d (.ride nm m c ov .single) =
      some { name := nm, cost := c + ((⌈max 0 (d - (m : ℚ)) / 30⌉ : ℤ) : ℚ) * ov,
             remaining := some 0, remaining_type := some "trips" } ∧
    velibPassQuote d (.ride nm m c ov (.multi n)) =
      some { name := nm,
             cost := c / (n : ℚ) + ((⌈max 0 (d - (m : ℚ)) / 30⌉ : ℤ) : ℚ) * ov,
             remaining := some ((n : ℚ) - 1), remaining_type := some "trips" } ∧
    ⌈max 0 (((m : ℚ)) - (m : ℚ)) / 30⌉ = 0 ∧
    ⌈max 0 ((((m : ℚ)) + 1) - (m : ℚ)) / 30⌉ = 1 := by
  have hblocks : (if d > (m : ℚ) then ⌈(d - (m : ℚ)) / 30⌉ else 0) =
      ⌈max 0 (d - (m : ℚ)) / 30⌉ := by
    rcases le_or_lt d (m : ℚ) with h | h
    · rw [if_neg (not_lt.mpr h), max_eq_left (by linarith)]
      norm_num
    · rw [if_pos h, max_eq_right (by linarith)]
  refine ⟨?_, ?_, ?_, ?_⟩
  · rw [velibPassQuote_ride, hblocks]
  · rw [velibPassQuote_ride, hblocks]
  · norm_num
  · have h1 : ((m : ℚ) + 1) - (m : ℚ) = 1 := by ring
    rw [h1, max_eq_right (by norm_num : (0 : ℚ) ≤ 1), Int.ceil_eq_iff]
    norm_num

/-- C8: `calculate_all_bike_costs` is deterministic — two calls with
identical duration and provider yield identical quote lists (the embedding
is a pure function of its arguments and of the immutable `BIKE_PROVIDERS`
constant, which no call can alter). -/
theorem C8_deterministic (d₁ d₂ : ℚ) (p₁ p₂ : String)
    (hd : d₁ = d₂) (hp : p₁ = p₂) :
    calculate_all_bike_costs d₁ p₁ = calculate_all_bike_costs d₂ p₂ := by
  rw [hd, hp]

/-- Witness for C8 at `d = 20`, provider Voi. -/
theorem C8_witness :
    (20 : ℚ) = 20 ∧
    calculate_all_bike_costs 20 "Voi" = calculate_all_bike_costs 20 "Voi" :=
  ⟨rfl, C8_deterministic 20 20 "Voi" "Voi" rfl rfl⟩

/-- C10: the Velib' overage block length is the constant 30 minutes: for any
ride pass exceeded by the trip (`m < d`), the quote charges
`⌈(d - m) / 30⌉` blocks at the configured block price, whatever the
configured prices are — the `Pass.ride` shape carries a block price
(`overage_per_30min`) but no block-length field. -/
theorem C10_block_constant_30 (d : ℚ) (nm : String) (m : ℕ) (c ov : ℚ) (n : ℕ)
    (h : (m : ℚ) < d) :
    velibPassQuote d (.ride nm m c ov .single) =
      some { name := nm, cost := c + ((⌈(d - (m : ℚ)) / 30⌉ : ℤ) : ℚ) * ov,
             remaining := some 0, remaining_type := some "trips" } ∧
    velibPassQuote d (.ride nm m c ov (.multi n)) =
      some { name := nm, cost := c / (n : ℚ) + ((⌈(d - (m : ℚ)) / 30⌉ : ℤ) : ℚ) * ov,
             remaining := some ((n : ℚ) - 1), remaining_type := some "trips" } := by
  constructor <;> rw [velibPassQuote_ride, if_pos h]

/-- C9: the generic (non-Velib') bundle path multiplies overage minutes by
the provider's per-minute rate with no `None` guard, so it is total whenever
the per-minute rate is present; every provider of the shipped configuration
satisfies this (Velib' takes its own branch), so `calculate_all_bike_costs`
is total for every shipped provider and every duration; without the
precondition the generic overage branch fails (last conjunct). -/
theorem C9_totality :
    (∀ (name : String) (t : Tariff) (r : ℚ) (d : ℚ), name ≠ "Velib'" →
        t.per_minute = some r → (computeQuotes d name t).isSome) ∧
    (∀ name ∈ BIKE_PROVIDERS.map Prod.fst, ∀ d : ℚ,
        (calculate_all_bike_costs d name).isSome) ∧
    computeQuotes 31 "SomeProvider"
        { unlock := 0, per_minute := none, passes := [.time 30 1] } = none := by
  refine ⟨fun name t r d hname hpm => computeQuotes_isSome_generic name t r d hname hpm,
    fun name hmem d => shipped_isSome name hmem d, ?_⟩
  have hg : genericPassQuote 31 none (.time 30 1) = none := by
    simp only [genericPassQuote, passMinutes, passCost]
    rw [if_neg (by norm_num)]
  simp [computeQuotes, quoteList, hg]

/-- Witness for C9: the shipped Voi provider is total at `d = 20`. -/
theorem C9_witness :
    "Voi" ∈ BIKE_PROVIDERS.map Prod.fst ∧
    (calculate_all_bike_costs 20 "Voi").isSome :=
  ⟨by simp [BIKE_PROVIDERS], C9_totality.2.1 "Voi" (by simp [BIKE_PROVIDERS]) 20⟩

/-- C1 counterexample: at duration `-10` the calculator does not fail — it
returns a full quote list for Voi, and that list contains negative costs
(the claimed InvalidInput short-circuit does not exist in the code). -/
theorem C1_counterexample :
    calculate_all_bike_costs (-10) "Voi" =
      some [{ name := "Per-minute", cost := -9/10, remaining := none, remaining_type := none },
            { name := "30 min pass", cost := -299/300, remaining := some 40,
              remaining_type := some "minutes" },
            { name := "60 min pass", cost := -183/200, remaining := some 70,
              remaining_type := some "minutes" },
            { name := "120 min pass", cost := -1099/1200, remaining := some 130,
              remaining_type := some "minutes" },
            { name := "200 min pass", cost := -1699/2000, remaining := some 210,
              remaining_type := some "minutes" },
            { name := "400 min pass", cost := -3199/4000, remaining := some 410,
              remaining_type := some "minutes" }] ∧
    (-9/10 : ℚ) < 0 := by
  constructor
  · have hl : BIKE_PROVIDERS.lookup "Voi" = some voiTariff := rfl
    have e30 : toString (30 : ℕ) ++ " min pass" = "30 min pass" := by decide
    have e60 : toString (60 : ℕ) ++ " min pass" = "60 min pass" := by decide
    have e120 : toString (120 : ℕ) ++ " min pass" = "120 min pass" := by decide
    have e200 : toString (200 : ℕ) ++ " min pass" = "200 min pass" := by decide
    have e400 : toString (400 : ℕ) ++ " min pass" = "400 min pass" := by decide
    have hne : "Voi" ≠ "Velib'" := by decide
    simp only [calculate_all_bike_costs]
    rw [hl]
    norm_num [voiTariff, computeQuotes, quoteList, genericPassQuote, passMinutes,
      passCost, hne, e30, e60, e120, e200, e400]
  · norm_num

/-- C1 amended: the calculator performs no validation of `durationMinutes`:
for every negative duration it still returns a quote list (no InvalidInput
error), and (for Voi) that list contains a quote of negative cost. -/
theorem C1_no_input_validation (d : ℚ) (hd : d < 0) :
    ∃ l, calculate_all_bike_costs d "Voi" = some l ∧ ∃ q ∈ l, q.cost < 0 := by
  have hl : BIKE_PROVIDERS.lookup "Voi" = some voiTariff := rfl
  obtain ⟨qs, hqs⟩ := quoteList_isSome (genericPassQuote d (some (19/100)))
    [.time 30 (299/100), .time 60 (549/100), .time 120 (1099/100),
     .time 200 (1699/100), .time 400 (3199/100)]
    (fun p _ => by rw [genericPassQuote_pm]; rfl)
  have h30 : d ≤ ((30 : ℕ) : ℚ) := by push_cast; linarith
  have hq : genericPassQuote d (some (19/100)) (.time 30 (299/100)) =
      some { name := toString (30 : ℕ) ++ " min pass", cost := d * (299/100 / ((30 : ℕ) : ℚ)),
             remaining := some (((30 : ℕ) : ℚ) - d), remaining_type := some "minutes" } := by
    rw [genericPassQuote_pm]
    simp only [passMinutes, passCost]
    rw [if_pos h30]
  have hmem : Quote.mk (toString (30 : ℕ) ++ " min pass")
      (d * (299/100 / ((30 : ℕ) : ℚ))) (some (((30 : ℕ) : ℚ) - d)) (some "minutes") ∈ qs :=
    (quoteList_mem_iff _ hqs _).mpr ⟨.time 30 (299/100), by simp, hq⟩
  refine ⟨{ name := "Per-minute", cost := 1 + d * (19/100), remaining := none,
            remaining_type := none } :: qs, ?_, _, List.mem_cons_of_mem _ hmem, ?_⟩
  · simp only [calculate_all_bike_costs]
    rw [hl]
    simp [voiTariff, computeQuotes, hqs]
  · show d * (299/100 / ((30 : ℕ) : ℚ)) < 0
    exact mul_neg_of_neg_of_pos hd (by norm_num)

/-- C5: a call that returns emits exactly (1 if a per-minute rate is present,
else 0) + (number of configured bundles) quotes: the per-minute quote (when
present) comes first, the `i`-th bundle's quote sits at offset + `i` in
configuration order, and a tariff with no per-minute rate and no bundles
yields the empty list. -/
theorem C5_quote_count_order (d : ℚ) (name : String) (t : Tariff) (l : List Quote)
    (h : computeQuotes d name t = some l) :
    l.length = (if t.per_minute.isSome then 1 else 0) + t.passes.length ∧
    (∀ r : ℚ, t.per_minute = some r →
      l.head? = some { name := "Per-minute", cost := t.unlock + d * r,
                       remaining := none, remaining_type := none }) ∧
    (∀ i : ℕ,
      (l.drop (if t.per_minute.isSome then 1 else 0))[i]? =
        (t.passes[i]?).bind
          (if name = "Velib'" then velibPassQuote d
           else genericPassQuote d t.per_minute)) ∧
    (t.per_minute = none → t.passes = [] → l = []) := by
  rw [computeQuotes_eq] at h
  obtain ⟨qs, hqs, hl⟩ := Option.map_eq_some'.mp h
  have hlen := quoteList_length _ hqs
  have hget := quoteList_getElem _ hqs
  rcases hpm : t.per_minute with _ | r
  · rw [hpm] at hl hget
    simp only at hl
    subst hl
    refine ⟨by simp [hlen], by simp, ?_, ?_⟩
    · intro i
      simpa using hget i
    · intro _ hps
      rw [hps] at hlen
      simpa using List.length_eq_zero.mp (by simpa using hlen)
  · rw [hpm] at hl hget
    simp only at hl
    subst hl
    refine ⟨by simp [hlen, Nat.add_comm], ?_, ?_, by simp⟩
    · intro r' hr'
      obtain rfl : r = r' := by simpa using hr'
      simp
    · intro i
      simpa using hget i

/-- Witness for C5: Dott at `d = 0` emits 3 quotes. -/
theorem C5_witness :
    computeQuotes 0 "Dott"
        { unlock := 1, per_minute := some (28/100),
          passes := [.time 30 (399/100), .time 100 (1199/100)] } =
      some [{ name := "Per-minute", cost := 1, remaining := none, remaining_type := none },
            { name := "30 min pass", cost := 0, remaining := some 30,
              remaining_type := some "minutes" },
            { name := "100 min pass", cost := 0, remaining := some 100,
              remaining_type := some "minutes" }] ∧
    ([{ name := "Per-minute", cost := 1, remaining := none, remaining_type := none },
      { name := "30 min pass", cost := 0, remaining := some 30,
        remaining_type := some "minutes" },
      { name := "100 min pass", cost := 0, remaining := some 100,
        remaining_type := some "minutes" }] : List Quote).length = 3 := by
  have e30 : toString (30 : ℕ) ++ " min pass" = "30 min pass" := by decide
  have e100 : toString (100 : ℕ) ++ " min pass" = "100 min pass" := by decide
  have hne : "Dott" ≠ "Velib'" := by decide
  have h : computeQuotes 0 "Dott"
      { unlock := 1, per_minute := some (28/100),
        passes := [.time 30 (399/100), .time 100 (1199/100)] } =
      some [{ name := "Per-minute", cost := 1, remaining := none, remaining_type := none },
            { name := "30 min pass", cost := 0, remaining := some 30,
              remaining_type := some "minutes" },
            { name := "100 min pass", cost := 0, remaining := some 100,
              remaining_type := some "minutes" }] := by
    norm_num [computeQuotes, quoteList, genericPassQuote, passMinutes, passCost,
      hne, e30, e100]
  refine ⟨h, ?_⟩
  have hlen := (C5_quote_count_order 0 "Dott" _ _ h).1
  simp only [hlen]
  rfl

theorem passWF_cost_nonneg {p : Pass} (h : passWF p) : 0 ≤ passCost p := by
  cases p with
  | time m c => exact h.2
  | ride nm m c ov k => exact h.2.1

/-- C6: with non-negative unlock fee, per-minute rate, bundle prices and
overage prices (and well-formed positive caps/trip counts, which §3 of the
spec requires of configuration), every quote emitted for a duration
`d ≥ 0` has non-negative cost. -/
theorem C6_cost_nonneg (d : ℚ) (name : String) (t : Tariff) (l : List Quote)
    (hd : 0 ≤ d) (hu : 0 ≤ t.unlock)
    (hpm : ∀ r : ℚ, t.per_minute = some r → 0 ≤ r)
    (hp : ∀ p ∈ t.passes, passWF p)
    (h : computeQuotes d name t = some l) :
    ∀ q ∈ l, 0 ≤ q.cost := by
  rw [computeQuotes_eq] at h
  obtain ⟨qs, hqs, hl⟩ := Option.map_eq_some'.mp h
  intro q hq
  rw [← hl] at hq
  rcases List.mem_append.mp hq with hbase | hqs'
  · rcases hpmv : t.per_minute with _ | r
    · rw [hpmv] at hbase; simp at hbase
    · rw [hpmv] at hbase
      simp only [List.mem_singleton] at hbase
      subst hbase
      exact add_nonneg hu (mul_nonneg hd (hpm r hpmv))
  · obtain ⟨p, hpmem, hfp⟩ := (quoteList_mem_iff _ hqs q).mp hqs'
    have hwf := hp p hpmem
    by_cases hv : name = "Velib'"
    · rw [if_pos hv] at hfp
      cases p with
      | time m c => simp [velibPassQuote] at hfp
      | ride nm m c ov k =>
        have hov : (0 : ℚ) ≤ ov := hwf.2.2.1
        have hc : (0 : ℚ) ≤ c := hwf.2.1
        have hblocks : (0 : ℚ) ≤
            (((if d > (m : ℚ) then ⌈(d - (m : ℚ)) / 30⌉ else 0) : ℤ) : ℚ) := by
          split
          · exact_mod_cast Int.ceil_nonneg
              (div_nonneg (by linarith) (by norm_num))
          · norm_num
        rw [velibPassQuote_ride] at hfp
        cases k with
        | single =>
          obtain rfl := Option.some.inj hfp
          exact add_nonneg hc (mul_nonneg hblocks hov)
        | multi n =>
          obtain rfl := Option.some.inj hfp
          exact add_nonneg (div_nonneg hc (by positivity))
            (mul_nonneg hblocks hov)
    · rw [if_neg hv] at hfp
      have hc : (0 : ℚ) ≤ passCost p := passWF_cost_nonneg hwf
      by_cases hfit : d ≤ (passMinutes p : ℚ)
      · simp only [genericPassQuote] at hfp
        rw [if_pos hfit] at hfp
        obtain rfl := Option.some.inj hfp
        exact mul_nonneg hd (div_nonneg hc (by positivity))
      · rcases hpmv : t.per_minute with _ | r
        · simp only [genericPassQuote] at hfp
          rw [if_neg hfit, hpmv] at hfp
          simp at hfp
        · simp only [genericPassQuote] at hfp
          rw [if_neg hfit, hpmv] at hfp
          obtain rfl := Option.some.inj hfp
          have hlt : (passMinutes p : ℚ) < d := not_le.mp hfit
          exact add_nonneg hc
            (mul_nonneg (by linarith) (hpm r hpmv))

/-- Witness for C6: Voi at `d = 20`; the per-minute quote's cost 4.80 is
non-negative. -/
theorem C6_witness :
    computeQuotes 20 "Voi"
        { unlock := 1, per_minute := some (19/100),
          passes := [.time 30 (299/100), .time 60 (549/100), .time 120 (1099/100),
                     .time 200 (1699/100), .time 400 (3199/100)] } =
      some [{ name := "Per-minute", cost := 24/5, remaining := none, remaining_type := none },
            { name := "30 min pass", cost := 299/150, remaining := some 10,
              remaining_type := some "minutes" },
            { name := "60 min pass", cost := 183/100, remaining := some 40,
              remaining_type := some "minutes" },
            { name := "120 min pass", cost := 1099/600, remaining := some 100,
              remaining_type := some "minutes" },
            { name := "200 min pass", cost := 1699/1000, remaining := some 180,
              remaining_type := some "minutes" },
            { name := "400 min pass", cost := 3199/2000, remaining := some 380,
              remaining_type := some "minutes" }] ∧
    0 ≤ (Quote.mk "Per-minute" (24/5) none none).cost := by
  have e30 : toString (30 : ℕ) ++ " min pass" = "30 min pass" := by decide
  have e60 : toString (60 : ℕ) ++ " min pass" = "60 min pass" := by decide
  have e120 : toString (120 : ℕ) ++ " min pass" = "120 min pass" := by decide
  have e200 : toString (200 : ℕ) ++ " min pass" = "200 min pass" := by decide
  have e400 : toString (400 : ℕ) ++ " min pass" = "400 min pass" := by decide
  have hne : "Voi" ≠ "Velib'" := by decide
  have h : computeQuotes 20 "Voi"
      { unlock := 1, per_minute := some (19/100),
        passes := [.time 30 (299/100), .time 60 (549/100), .time 120 (1099/100),
                   .time 200 (1699/100), .time 400 (3199/100)] } =
      some [{ name := "Per-minute", cost := 24/5, remaining := none, remaining_type := none },
            { name := "30 min pass", cost := 299/150, remaining := some 10,
              remaining_type := some "minutes" },
            { name := "60 min pass", cost := 183/100, remaining := some 40,
              remaining_type := some "minutes" },
            { name := "120 min pass", cost := 1099/600, remaining := some 100,
              remaining_type := some "minutes" },
            { name := "200 min pass", cost := 1699/1000, remaining := some 180,
              remaining_type := some "minutes" },
            { name := "400 min pass", cost := 3199/2000, remaining := some 380,
              remaining_type := some "minutes" }] := by
    norm_num [computeQuotes, quoteList, genericPassQuote, passMinutes, passCost,
      hne, e30, e60, e120, e200, e400]
  refine ⟨h, ?_⟩
  refine C6_cost_nonneg 20 "Voi" _ _ (by norm_num) (by norm_num) ?_ ?_ h
    (Quote.mk "Per-minute" (24/5) none none) (List.mem_cons_self _ _)
  · intro r hr
    obtain rfl : (19/100 : ℚ) = r := by simpa using hr
    norm_num
  · intro p hp
    simp only [List.mem_cons, List.not_mem_nil, or_false] at hp
    rcases hp with rfl | rfl | rfl | rfl | rfl <;> norm_num [passWF]

theorem foldl_min_spec (xs : List (String × Quote)) :
    ∀ a : ℚ,
      (xs.foldl (fun m o => if o.2.cost < m then o.2.cost else m) a ≤ a) ∧
      (∀ o ∈ xs, xs.foldl (fun m o => if o.2.cost < m then o.2.cost else m) a ≤ o.2.cost) ∧
      (xs.foldl (fun m o => if o.2.cost < m then o.2.cost else m) a = a ∨
        ∃ o ∈ xs, xs.foldl (fun m o => if o.2.cost < m then o.2.cost else m) a = o.2.cost) := by
  induction xs with
  | nil => intro a; simp
  | cons x xs ih =>
    intro a
    simp only [List.foldl_cons]
    obtain ⟨ihle, ihall, ihatt⟩ := ih (if x.2.cost < a then x.2.cost else a)
    have ha'le : (if x.2.cost < a then x.2.cost else a) ≤ a := by
      by_cases hx : x.2.cost < a
      · rw [if_pos hx]; exact le_of_lt hx
      · rw [if_neg hx]
    have ha'x : (if x.2.cost < a then x.2.cost else a) ≤ x.2.cost := by
      by_cases hx : x.2.cost < a
      · rw [if_pos hx]
      · rw [if_neg hx]; exact not_lt.mp hx
    refine ⟨le_trans ihle ha'le, ?_, ?_⟩
    · intro o ho
      rcases List.mem_cons.mp ho with rfl | ho
      · exact le_trans ihle ha'x
      · exact ihall o ho
    · rcases ihatt with he | ⟨o, ho, he⟩
      · by_cases hx : x.2.cost < a
        · right
          exact ⟨x, List.mem_cons_self _ _, by rw [he, if_pos hx]⟩
        · left
          rw [he, if_neg hx]
      · right
        exact ⟨o, List.mem_cons_of_mem _ ho, he⟩

/-- C7: on the aggregated option sequence, `min_cost` is attained by some
option and bounds every option's cost from below, and `cheapest_providers`
contains a provider exactly when one of its quotes is within 0.01 of that
minimum. -/
theorem C7_cheapest_aggregation (d : ℚ) (l : List (String × Quote)) (m : ℚ)
    (hl : all_options d = some l) (hm : min_cost l = some m) :
    ((∃ o ∈ l, o.2.cost = m) ∧ ∀ o ∈ l, m ≤ o.2.cost) ∧
    (∀ p : String, p ∈ cheapest_providers l m ↔
      ∃ o ∈ l, o.1 = p ∧ |o.2.cost - m| < 1/100) := by
  rcases l with _ | ⟨x, xs⟩
  · simp [min_cost] at hm
  obtain rfl : xs.foldl (fun m o => if o.2.cost < m then o.2.cost else m) x.2.cost = m := by
    simpa [min_cost] using hm
  obtain ⟨hle, hall, hatt⟩ := foldl_min_spec xs x.2.cost
  refine ⟨⟨?_, ?_⟩, ?_⟩
  · rcases hatt with he | ⟨o, ho, he⟩
    · exact ⟨x, List.mem_cons_self _ _, he.symm⟩
    · exact ⟨o, List.mem_cons_of_mem _ ho, he.symm⟩
  · intro o ho
    rcases List.mem_cons.mp ho with rfl | ho
    · exact hle
    · exact hall o ho
  · intro p
    simp only [cheapest_providers, List.mem_dedup, List.mem_map, List.mem_filter,
      decide_eq_true_eq]
    constructor
    · rintro ⟨o, ⟨ho, habs⟩, rfl⟩
      exact ⟨o, ho, rfl, habs⟩
    · rintro ⟨o, ho, rfl, habs⟩
      exact ⟨o, ⟨ho, habs⟩, rfl⟩

/-- Witness for C7 at `d = 0`: the minimum cost over all 16 aggregated
options is 0, attained by the prorated bundle quotes. -/
theorem C7_witness :
    all_options 0 =
      some [("Voi", ⟨"Per-minute", 1, none, none⟩),
            ("Voi", ⟨"30 min pass", 0, some 30, some "minutes"⟩),
            ("Voi", ⟨"60 min pass", 0, some 60, some "minutes"⟩),
            ("Voi", ⟨"120 min pass", 0, some 120, some "minutes"⟩),
            ("Voi", ⟨"200 min pass", 0, some 200, some "minutes"⟩),
            ("Voi", ⟨"400 min pass", 0, some 400, some "minutes"⟩),
            ("Dott", ⟨"Per-minute", 1, none, none⟩),
            ("Dott", ⟨"30 min pass", 0, some 30, some "minutes"⟩),
            ("Dott", ⟨"100 min pass", 0, some 100, some "minutes"⟩),
            ("Lime", ⟨"Per-minute", 1, none, none⟩),
            ("Lime", ⟨"30 min pass", 0, some 30, some "minutes"⟩),
            ("Lime", ⟨"60 min pass", 0, some 60, some "minutes"⟩),
            ("Lime", ⟨"200 min pass", 0, some 200, some "minutes"⟩),
            ("Lime", ⟨"400 min pass", 0, some 400, some "minutes"⟩),
            ("Velib'", ⟨"Ticket V", 3, some 0, some "trips"⟩),
            ("Velib'", ⟨"24h Pass", 2, some 4, some "trips"⟩)] ∧
    min_cost [("Voi", ⟨"Per-minute", 1, none, none⟩),
            ("Voi", ⟨"30 min pass", 0, some 30, some "minutes"⟩),
            ("Voi", ⟨"60 min pass", 0, some 60, some "minutes"⟩),
            ("Voi", ⟨"120 min pass", 0, some 120, some "minutes"⟩),
            ("Voi", ⟨"200 min pass", 0, some 200, some "minutes"⟩),
            ("Voi", ⟨"400 min pass", 0, some 400, some "minutes"⟩),
            ("Dott", ⟨"Per-minute", 1, none, none⟩),
            ("Dott", ⟨"30 min pass", 0, some 30, some "minutes"⟩),
            ("Dott", ⟨"100 min pass", 0, some 100, some "minutes"⟩),
            ("Lime", ⟨"Per-minute", 1, none, none⟩),
            ("Lime", ⟨"30 min pass", 0, some 30, some "minutes"⟩),
            ("Lime", ⟨"60 min pass", 0, some 60, some "minutes"⟩),
            ("Lime", ⟨"200 min pass", 0, some 200, some "minutes"⟩),
            ("Lime", ⟨"400 min pass", 0, some 400, some "minutes"⟩),
            ("Velib'", ⟨"Ticket V", 3, some 0, some "trips"⟩),
            ("Velib'", ⟨"24h Pass", 2, some 4, some "trips"⟩)] = some 0 ∧
    (0 : ℚ) ≤ (Quote.mk "Per-minute" 1 none none).cost := by
  have e30 : toString (30 : ℕ) ++ " min pass" = "30 min pass" := by decide
  have e60 : toString (60 : ℕ) ++ " min pass" = "60 min pass" := by decide
  have e100 : toString (100 : ℕ) ++ " min pass" = "100 min pass" := by decide
  have e120 : toString (120 : ℕ) ++ " min pass" = "120 min pass" := by decide
  have e200 : toString (200 : ℕ) ++ " min pass" = "200 min pass" := by decide
  have e400 : toString (400 : ℕ) ++ " min pass" = "400 min pass" := by decide
  have hVoi : calculate_all_bike_costs 0 "Voi" =
      some [⟨"Per-minute", 1, none, none⟩,
            ⟨"30 min pass", 0, some 30, some "minutes"⟩,
            ⟨"60 min pass", 0, some 60, some "minutes"⟩,
            ⟨"120 min pass", 0, some 120, some "minutes"⟩,
            ⟨"200 min pass", 0, some 200, some "minutes"⟩,
            ⟨"400 min pass", 0, some 400, some "minutes"⟩] := by
    have hl : BIKE_PROVIDERS.lookup "Voi" = some voiTariff := rfl
    have hne : "Voi" ≠ "Velib'" := by decide
    simp only [calculate_all_bike_costs]
    rw [hl]
    norm_num [voiTariff, computeQuotes, quoteList, genericPassQuote, passMinutes,
      passCost, hne, e30, e60, e120, e200, e400]
  have hDott : calculate_all_bike_costs 0 "Dott" =
      some [⟨"Per-minute", 1, none, none⟩,
            ⟨"30 min pass", 0, some 30, some "minutes"⟩,
            ⟨"100 min pass", 0, some 100, some "minutes"⟩] := by
    have hl : BIKE_PROVIDERS.lookup "Dott" = some dottTariff := rfl
    have hne : "Dott" ≠ "Velib'" := by decide
    simp only [calculate_all_bike_costs]
    rw [hl]
    norm_num [dottTariff, computeQuotes, quoteList, genericPassQuote, passMinutes,
      passCost, hne, e30, e100]
  have hLime : calculate_all_bike_costs 0 "Lime" =
      some [⟨"Per-minute", 1, none, none⟩,
            ⟨"30 min pass", 0, some 30, some "minutes"⟩,
            ⟨"60 min pass", 0, some 60, some "minutes"⟩,
            ⟨"200 min pass", 0, some 200, some "minutes"⟩,
            ⟨"400 min pass", 0, some 400, some "minutes"⟩] := by
    have hl : BIKE_PROVIDERS.lookup "Lime" = some limeTariff := rfl
    have hne : "Lime" ≠ "Velib'" := by decide
    simp only [calculate_all_bike_costs]
    rw [hl]
    norm_num [limeTariff, computeQuotes, quoteList, genericPassQuote, passMinutes,
      passCost, hne, e30, e60, e200, e400]
  have hVelib : calculate_all_bike_costs 0 "Velib'" =
      some [⟨"Ticket V", 3, some 0, some "trips"⟩,
            ⟨"24h Pass", 2, some 4, some "trips"⟩] := by
    have hl : BIKE_PROVIDERS.lookup "Velib'" = some velibTariff := rfl
    simp only [calculate_all_bike_costs]
    rw [hl]
    norm_num [velibTariff, computeQuotes, quoteList, velibPassQuote]
  have hall : all_options 0 =
      some [("Voi", ⟨"Per-minute", 1, none, none⟩),
            ("Voi", ⟨"30 min pass", 0, some 30, some "minutes"⟩),
            ("Voi", ⟨"60 min pass", 0, some 60, some "minutes"⟩),
            ("Voi", ⟨"120 min pass", 0, some 120, some "minutes"⟩),
            ("Voi", ⟨"200 min pass", 0, some 200, some "minutes"⟩),
            ("Voi", ⟨"400 min pass", 0, some 400, some "minutes"⟩),
            ("Dott", ⟨"Per-minute", 1, none, none⟩),
            ("Dott", ⟨"30 min pass", 0, some 30, some "minutes"⟩),
            ("Dott", ⟨"100 min pass", 0, some 100, some "minutes"⟩),
            ("Lime", ⟨"Per-minute", 1, none, none⟩),
            ("Lime", ⟨"30 min pass", 0, some 30, some "minutes"⟩),
            ("Lime", ⟨"60 min pass", 0, some 60, some "minutes"⟩),
            ("Lime", ⟨"200 min pass", 0, some 200, some "minutes"⟩),
            ("Lime", ⟨"400 min pass", 0, some 400, some "minutes"⟩),
            ("Velib'", ⟨"Ticket V", 3, some 0, some "trips"⟩),
            ("Velib'", ⟨"24h Pass", 2, some 4, some "trips"⟩)] := by
    simp only [all_options, BIKE_PROVIDERS, allOptionsAux, hVoi, hDott, hLime, hVelib]
    rfl
  have hmin : min_cost [("Voi", (⟨"Per-minute", 1, none, none⟩ : Quote)),
            ("Voi", ⟨"30 min pass", 0, some 30, some "minutes"⟩),
            ("Voi", ⟨"60 min pass", 0, some 60, some "minutes"⟩),
            ("Voi", ⟨"120 min pass", 0, some 120, some "minutes"⟩),
            ("Voi", ⟨"200 min pass", 0, some 200, some "minutes"⟩),
            ("Voi", ⟨"400 min pass", 0, some 400, some "minutes"⟩),
            ("Dott", ⟨"Per-minute", 1, none, none⟩),
            ("Dott", ⟨"30 min pass", 0, some 30, some "minutes"⟩),
            ("Dott", ⟨"100 min pass", 0, some 100, some "minutes"⟩),
            ("Lime", ⟨"Per-minute", 1, none, none⟩),
            ("Lime", ⟨"30 min pass", 0, some 30, some "minutes"⟩),
            ("Lime", ⟨"60 min pass", 0, some 60, some "minutes"⟩),
            ("Lime", ⟨"200 min pass", 0, some 200, some "minutes"⟩),
            ("Lime", ⟨"400 min pass", 0, some 400, some "minutes"⟩),
            ("Velib'", ⟨"Ticket V", 3, some 0, some "trips"⟩),
            ("Velib'", ⟨"24h Pass", 2, some 4, some "trips"⟩)] = some 0 := by
    norm_num [min_cost]
  exact ⟨hall, hmin,
    (C7_cheapest_aggregation 0 _ 0 hall hmin).1.2 _ (List.mem_cons_self _ _)⟩

/-- Witness for C1's amended theorem at `d = -10`. -/
theorem C1_witness :
    (-10 : ℚ) < 0 ∧
    ∃ l, calculate_all_bike_costs (-10) "Voi" = some l ∧ ∃ q ∈ l, q.cost < 0 :=
  ⟨by norm_num, C1_no_input_validation (-10) (by norm_num)⟩

/-- Witness for C10 at the spec's example: Ticket V (`m = 45`), `d = 50`. -/
theorem C10_witness :
    ((45 : ℕ) : ℚ) < 50 ∧
    velibPassQuote 50 (.ride "Ticket V" 45 3 2 .single) =
      some { name := "Ticket V", cost := 3 + ((⌈((50 : ℚ) - ((45 : ℕ) : ℚ)) / 30⌉ : ℤ) : ℚ) * 2,
             remaining := some 0, remaining_type := some "trips" } ∧
    velibPassQuote 50 (.ride "Ticket V" 45 3 2 (.multi 5)) =
      some { name := "Ticket V",
             cost := 3 / ((5 : ℕ) : ℚ) + ((⌈((50 : ℚ) - ((45 : ℕ) : ℚ)) / 30⌉ : ℤ) : ℚ) * 2,
             remaining := some (((5 : ℕ) : ℚ) - 1), remaining_type := some "trips" } :=
  ⟨by norm_num,
   (C10_block_constant_30 50 "Ticket V" 45 3 2 5 (by norm_num)).1,
   (C10_block_constant_30 50 "Ticket V" 45 3 2 5 (by norm_num)).2⟩

/-- C4 counterexample: at `d = 28` no per-minute or under-60-minute pass of
Voi/Dott/Lime beats the metro fare, so the code recommends metro
(`short_term_cheaper` is false) — yet the Velib' 24h Pass quote, a bundle
with minute cap 45 < 60, costs 2.00 < 2.50, so the claim's condition holds:
the claimed "exactly when" equivalence fails. -/
theorem C4_counterexample :
    short_term_cheaper 28 = some false ∧ claimPracticallyCheaper 28 := by
  have e30 : toString (30 : ℕ) ++ " min pass" = "30 min pass" := by decide
  have e60 : toString (60 : ℕ) ++ " min pass" = "60 min pass" := by decide
  have e100 : toString (100 : ℕ) ++ " min pass" = "100 min pass" := by decide
  have e120 : toString (120 : ℕ) ++ " min pass" = "120 min pass" := by decide
  have e200 : toString (200 : ℕ) ++ " min pass" = "200 min pass" := by decide
  have e400 : toString (400 : ℕ) ++ " min pass" = "400 min pass" := by decide
  constructor
  · have hVoi : calculate_all_bike_costs 28 "Voi" =
        some [⟨"Per-minute", 158/25, none, none⟩,
              ⟨"30 min pass", 2093/750, some 2, some "minutes"⟩,
              ⟨"60 min pass", 1281/500, some 32, some "minutes"⟩,
              ⟨"120 min pass", 7693/3000, some 92, some "minutes"⟩,
              ⟨"200 min pass", 11893/5000, some 172, some "minutes"⟩,
              ⟨"400 min pass", 22393/10000, some 372, some "minutes"⟩] := by
      rw [calc_voi]
      norm_num [voiTariff, computeQuotes, quoteList, genericPassQuote, passMinutes,
        passCost, (by decide : ¬ ("Voi" = "Velib'")), e30, e60, e120, e200, e400]
    have hDott : calculate_all_bike_costs 28 "Dott" =
        some [⟨"Per-minute", 221/25, none, none⟩,
              ⟨"30 min pass", 931/250, some 2, some "minutes"⟩,
              ⟨"100 min pass", 8393/2500, some 72, some "minutes"⟩] := by
      rw [calc_dott]
      norm_num [dottTariff, computeQuotes, quoteList, genericPassQuote, passMinutes,
        passCost, (by decide : ¬ ("Dott" = "Velib'")), e30, e100]
    have hLime : calculate_all_bike_costs 28 "Lime" =
        some [⟨"Per-minute", 186/25, none, none⟩,
              ⟨"30 min pass", 931/250, some 2, some "minutes"⟩,
              ⟨"60 min pass", 1631/500, some 32, some "minutes"⟩,
              ⟨"200 min pass", 15393/5000, some 172, some "minutes"⟩,
              ⟨"400 min pass", 27993/10000, some 372, some "minutes"⟩] := by
      rw [calc_lime]
      norm_num [limeTariff, computeQuotes, quoteList, genericPassQuote, passMinutes,
        passCost, (by decide : ¬ ("Lime" = "Velib'")), e30, e60, e200, e400]
    have hVelib : calculate_all_bike_costs 28 "Velib'" =
        some [⟨"Ticket V", 3, some 0, some "trips"⟩,
              ⟨"24h Pass", 2, some 4, some "trips"⟩] := by
      rw [calc_velib]
      norm_num [velibTariff, computeQuotes, quoteList, velibPassQuote]
    have hall : all_options 28 =
        some [("Voi", ⟨"Per-minute", 158/25, none, none⟩),
              ("Voi", ⟨"30 min pass", 2093/750, some 2, some "minutes"⟩),
              ("Voi", ⟨"60 min pass", 1281/500, some 32, some "minutes"⟩),
              ("Voi", ⟨"120 min pass", 7693/3000, some 92, some "minutes"⟩),
              ("Voi", ⟨"200 min pass", 11893/5000, some 172, some "minutes"⟩),
              ("Voi", ⟨"400 min pass", 22393/10000, some 372, some "minutes"⟩),
              ("Dott", ⟨"Per-minute", 221/25, none, none⟩),
              ("Dott", ⟨"30 min pass", 931/250, some 2, some "minutes"⟩),
              ("Dott", ⟨"100 min pass", 8393/2500, some 72, some "minutes"⟩),
              ("Lime", ⟨"Per-minute", 186/25, none, none⟩),
              ("Lime", ⟨"30 min pass", 931/250, some 2, some "minutes"⟩),
              ("Lime", ⟨"60 min pass", 1631/500, some 32, some "minutes"⟩),
              ("Lime", ⟨"200 min pass", 15393/5000, some 172, some "minutes"⟩),
              ("Lime", ⟨"400 min pass", 27993/10000, some 372, some "minutes"⟩),
              ("Velib'", ⟨"Ticket V", 3, some 0, some "trips"⟩),
              ("Velib'", ⟨"24h Pass", 2, some 4, some "trips"⟩)] := by
      simp only [all_options, BIKE_PROVIDERS, allOptionsAux, hVoi, hDott, hLime, hVelib]
      rfl
    simp only [short_term_cheaper, hall, Option.map_some', Option.some.injEq]
    rw [List.any_eq_false]
    intro o ho
    simp only [List.mem_cons, List.not_mem_nil, or_false] at ho
    rw [Bool.not_eq_true]
    rcases ho with rfl | rfl | rfl | rfl | rfl | rfl | rfl | rfl | rfl | rfl | rfl |
      rfl | rfl | rfl | rfl | rfl
    · exact shortTermOpt_false_of_cost (by norm_num [METRO_COST])
    · exact shortTermOpt_false_of_cost (by norm_num [METRO_COST])
    · exact shortTermOpt_false_of_name (by decide)
    · exact shortTermOpt_false_of_name (by decide)
    · exact shortTermOpt_false_of_name (by decide)
    · exact shortTermOpt_false_of_name (by decide)
    · exact shortTermOpt_false_of_cost (by norm_num [METRO_COST])
    · exact shortTermOpt_false_of_cost (by norm_num [METRO_COST])
    · exact shortTermOpt_false_of_name (by decide)
    · exact shortTermOpt_false_of_cost (by norm_num [METRO_COST])
    · exact shortTermOpt_false_of_cost (by norm_num [METRO_COST])
    · exact shortTermOpt_false_of_name (by decide)
    · exact shortTermOpt_false_of_name (by decide)
    · exact shortTermOpt_false_of_name (by decide)
    · exact shortTermOpt_false_of_velib rfl
    · exact shortTermOpt_false_of_velib rfl
  · refine ⟨("Velib'", velibTariff), by simp [BIKE_PROVIDERS],
      Or.inr ⟨.ride "24h Pass" 45 10 2 (.multi 5), by simp [velibTariff],
        by decide, ⟨"24h Pass", 2, some 4, some "trips"⟩, ?_, by norm_num [METRO_COST]⟩⟩
    rw [if_pos rfl, velibPassQuote_ride, if_neg (by norm_num)]
    norm_num

/-- C4 amended: e-bike is recommended over metro exactly when some quote of
a provider other than Velib' that is the per-minute option or comes from a
bundle with minute cap under 60 costs strictly less than the metro fare. -/
theorem C4_amended_recommendation (d : ℚ) :
    short_term_cheaper d = some true ↔ amendedPracticallyCheaper d := by
  obtain ⟨l, hl⟩ := all_options_isSome d
  have hmem := allOptionsAux_mem_iff d BIKE_PROVIDERS l hl
  simp only [short_term_cheaper, hl, Option.map_some', Option.some.injEq]
  rw [List.any_eq_true]
  constructor
  · rintro ⟨o, ho, hsto⟩
    obtain ⟨c1, c2, c3⟩ := (shortTermOpt_true_iff o).mp hsto
    obtain ⟨pr, hpr, ho1, lq, hcalc, holq⟩ := (hmem o).mp ho
    simp only [BIKE_PROVIDERS, List.mem_cons, List.not_mem_nil, or_false] at hpr
    rcases hpr with rfl | rfl | rfl | rfl
    · rw [ho1, calc_voi] at hcalc
      rcases (computeQuotes_mem_iff d "Voi" voiTariff lq hcalc o.2).mp holq with
        ⟨r, hr, hq⟩ | ⟨p, hp, hfp⟩
      · refine ⟨("Voi", voiTariff), by simp [BIKE_PROVIDERS], by decide,
          Or.inl ⟨r, hr, ?_⟩⟩
        rw [hq] at c1
        exact c1
      · rw [if_neg (by decide : ¬ ("Voi" = "Velib'"))] at hfp
        have hn := genericPassQuote_name hfp
        have hp' : p ∈ ([.time 30 (299/100), .time 60 (549/100), .time 120 (1099/100),
            .time 200 (1699/100), .time 400 (3199/100)] : List Pass) := hp
        simp only [List.mem_cons, List.not_mem_nil, or_false] at hp'
        rcases hp' with rfl | rfl | rfl | rfl | rfl
        · exact ⟨("Voi", voiTariff), by simp [BIKE_PROVIDERS], by decide,
            Or.inr ⟨_, hp, by decide, o.2, hfp, c1⟩⟩
        · rw [hn] at c3; exact absurd c3 (by decide)
        · rw [hn] at c3; exact absurd c3 (by decide)
        · rw [hn] at c3; exact absurd c3 (by decide)
        · rw [hn] at c3; exact absurd c3 (by decide)
    · rw [ho1, calc_dott] at hcalc
      rcases (computeQuotes_mem_iff d "Dott" dottTariff lq hcalc o.2).mp holq with
        ⟨r, hr, hq⟩ | ⟨p, hp, hfp⟩
      · refine ⟨("Dott", dottTariff), by simp [BIKE_PROVIDERS], by decide,
          Or.inl ⟨r, hr, ?_⟩⟩
        rw [hq] at c1
        exact c1
      · rw [if_neg (by decide : ¬ ("Dott" = "Velib'"))] at hfp
        have hn := genericPassQuote_name hfp
        have hp' : p ∈ ([.time 30 (399/100), .time 100 (1199/100)] : List Pass) := hp
        simp only [List.mem_cons, List.not_mem_nil, or_false] at hp'
        rcases hp' with rfl | rfl
        · exact ⟨("Dott", dottTariff), by simp [BIKE_PROVIDERS], by decide,
            Or.inr ⟨_, hp, by decide, o.2, hfp, c1⟩⟩
        · rw [hn] at c3; exact absurd c3 (by decide)
    · rw [ho1, calc_lime] at hcalc
      rcases (computeQuotes_mem_iff d "Lime" limeTariff lq hcalc o.2).mp holq with
        ⟨r, hr, hq⟩ | ⟨p, hp, hfp⟩
      · refine ⟨("Lime", limeTariff), by simp [BIKE_PROVIDERS], by decide,
          Or.inl ⟨r, hr, ?_⟩⟩
        rw [hq] at c1
        exact c1
      · rw [if_neg (by decide : ¬ ("Lime" = "Velib'"))] at hfp
        have hn := genericPassQuote_name hfp
        have hp' : p ∈ ([.time 30 (399/100), .time 60 (699/100), .time 200 (2199/100),
            .time 400 (3999/100)] : List Pass) := hp
        simp only [List.mem_cons, List.not_mem_nil, or_false] at hp'
        rcases hp' with rfl | rfl | rfl | rfl
        · exact ⟨("Lime", limeTariff), by simp [BIKE_PROVIDERS], by decide,
            Or.inr ⟨_, hp, by decide, o.2, hfp, c1⟩⟩
        · rw [hn] at c3; exact absurd c3 (by decide)
        · rw [hn] at c3; exact absurd c3 (by decide)
        · rw [hn] at c3; exact absurd c3 (by decide)
    · exact absurd ho1 c2
  · rintro ⟨pr, hpr, hne, hcase⟩
    simp only [BIKE_PROVIDERS, List.mem_cons, List.not_mem_nil, or_false] at hpr
    rcases hpr with rfl | rfl | rfl | rfl
    · rcases hcase with ⟨r, hr, hcost⟩ | ⟨p, hp, hm60, q, hq, hcost⟩
      · refine ⟨("Voi", Quote.mk "Per-minute" (voiTariff.unlock + d * r) none none),
          shipped_quote_mem d "Voi" voiTariff (by simp [BIKE_PROVIDERS]) (calc_voi d)
            (shipped_isSome "Voi" (by simp [BIKE_PROVIDERS]) d) l hl _
            (Or.inl ⟨r, hr, rfl⟩), ?_⟩
        rw [shortTermOpt_true_iff]
        exact ⟨hcost, (by decide : ("Voi" : String) ≠ "Velib'"),
          (by decide : shortTermName "Per-minute" = true)⟩
      · refine ⟨("Voi", q),
          shipped_quote_mem d "Voi" voiTariff (by simp [BIKE_PROVIDERS]) (calc_voi d)
            (shipped_isSome "Voi" (by simp [BIKE_PROVIDERS]) d) l hl q
            (Or.inr ⟨p, hp, by rw [if_neg (by decide : ¬ ("Voi" = "Velib'"))]; exact hq⟩),
          ?_⟩
        rw [shortTermOpt_true_iff]
        refine ⟨hcost, (by decide : ("Voi" : String) ≠ "Velib'"), ?_⟩
        have hn := genericPassQuote_name hq
        have hp' : p ∈ ([.time 30 (299/100), .time 60 (549/100), .time 120 (1099/100),
            .time 200 (1699/100), .time 400 (3199/100)] : List Pass) := hp
        simp only [List.mem_cons, List.not_mem_nil, or_false] at hp'
        rcases hp' with rfl | rfl | rfl | rfl | rfl
        · show shortTermName q.name = true
          rw [hn]; decide
        · exact absurd hm60 (by decide)
        · exact absurd hm60 (by decide)
        · exact absurd hm60 (by decide)
        · exact absurd hm60 (by decide)
    · rcases hcase with ⟨r, hr, hcost⟩ | ⟨p, hp, hm60, q, hq, hcost⟩
      · refine ⟨("Dott", Quote.mk "Per-minute" (dottTariff.unlock + d * r) none none),
          shipped_quote_mem d "Dott" dottTariff (by simp [BIKE_PROVIDERS]) (calc_dott d)
            (shipped_isSome "Dott" (by simp [BIKE_PROVIDERS]) d) l hl _
            (Or.inl ⟨r, hr, rfl⟩), ?_⟩
        rw [shortTermOpt_true_iff]
        exact ⟨hcost, (by decide : ("Dott" : String) ≠ "Velib'"),
          (by decide : shortTermName "Per-minute" = true)⟩
      · refine ⟨("Dott", q),
          shipped_quote_mem d "Dott" dottTariff (by simp [BIKE_PROVIDERS]) (calc_dott d)
            (shipped_isSome "Dott" (by simp [BIKE_PROVIDERS]) d) l hl q
            (Or.inr ⟨p, hp, by rw [if_neg (by decide : ¬ ("Dott" = "Velib'"))]; exact hq⟩),
          ?_⟩
        rw [shortTermOpt_true_iff]
        refine ⟨hcost, (by decide : ("Dott" : String) ≠ "Velib'"), ?_⟩
        have hn := genericPassQuote_name hq
        have hp' : p ∈ ([.time 30 (399/100), .time 100 (1199/100)] : List Pass) := hp
        simp only [List.mem_cons, List.not_mem_nil, or_false] at hp'
        rcases hp' with rfl | rfl
        · show shortTermName q.name = true
          rw [hn]; decide
        · exact absurd hm60 (by decide)
    · rcases hcase with ⟨r, hr, hcost⟩ | ⟨p, hp, hm60, q, hq, hcost⟩
      · refine ⟨("Lime", Quote.mk "Per-minute" (limeTariff.unlock + d * r) none none),
          shipped_quote_mem d "Lime" limeTariff (by simp [BIKE_PROVIDERS]) (calc_lime d)
            (shipped_isSome "Lime" (by simp [BIKE_PROVIDERS]) d) l hl _
            (Or.inl ⟨r, hr, rfl⟩), ?_⟩
        rw [shortTermOpt_true_iff]
        exact ⟨hcost, (by decide : ("Lime" : String) ≠ "Velib'"),
          (by decide : shortTermName "Per-minute" = true)⟩
      · refine ⟨("Lime", q),
          shipped_quote_mem d "Lime" limeTariff (by simp [BIKE_PROVIDERS]) (calc_lime d)
            (shipped_isSome "Lime" (by simp [BIKE_PROVIDERS]) d) l hl q
            (Or.inr ⟨p, hp, by rw [if_neg (by decide : ¬ ("Lime" = "Velib'"))]; exact hq⟩),
          ?_⟩
        rw [shortTermOpt_true_iff]
        refine ⟨hcost, (by decide : ("Lime" : String) ≠ "Velib'"), ?_⟩
        have hn := genericPassQuote_name hq
        have hp' : p ∈ ([.time 30 (399/100), .time 60 (699/100), .time 200 (2199/100),
            .time 400 (3999/100)] : List Pass) := hp
        simp only [List.mem_cons, List.not_mem_nil, or_false] at hp'
        rcases hp' with rfl | rfl | rfl | rfl
        · show shortTermName q.name = true
          rw [hn]; decide
        · exact absurd hm60 (by decide)
        · exact absurd hm60 (by decide)
        · exact absurd hm60 (by decide)
    · exact absurd rfl hne

end ParisCompare
